import Mathlib

/-!
# Verification of the addnorth/material-configs generation pipeline

Shallow embedding of the repository's core logic:

* the Merge Engine (`deepMerge`, `build/merge.ts`),
* the Bambu Slicer JSON generator (`build/generators/bambuslicer.ts`),
* the PrusaSlicer INI generator (`build/generators/prusaslicer.ts`),
* the format detector (`build/generators/index.ts`),
* the loaders (`build/loaders.ts`) and validation (`build/validate.ts`).

JavaScript objects are modelled as association lists `List (String × Json)`
with unique keys (as produced by `JSON.parse`); `jsLookup` reads the first
binding and `setKey` models `obj[k] = v` (update in place, else append),
which matches JS property semantics on such objects.  JSON numbers are
modelled as integers (every number occurring in the verified claims is an
integer; no claim depends on floating-point behaviour).  File-system reads
are passed in explicitly as environment values.
-/

/-- JSON value, as produced by `JSON.parse`.  `jobj` carries the fields in
insertion order; parsed objects have pairwise distinct keys. -/
inductive Json where
  | jnull : Json
  | jbool : Bool → Json
  | jnum  : Int → Json
  | jstr  : String → Json
  | jarr  : List Json → Json
  | jobj  : List (String × Json) → Json

/-- A JS object: field list in insertion order. -/
abbrev JObj := List (String × Json)

/-- An INI config as returned by `ini.parse`: section name → settings. -/
abbrev INIObj := List (String × JObj)

/-- First binding of a key, modelling JS property read (`undefined` = `none`). -/
def jsLookup : List (String × α) → String → Option α
  | [], _ => none
  | (k', v) :: rest, k => if k' = k then some v else jsLookup rest k

/-- `obj[k] = v`: overwrite the existing binding in place, else append. -/
def setKey : List (String × α) → String → α → List (String × α)
  | [], k, v => [(k, v)]
  | (k', v') :: rest, k, v =>
      if k' = k then (k', v) :: rest else (k', v') :: setKey rest k v

/-- JS truthiness of a JSON value (`NaN` cannot arise: numbers are integers). -/
def jsTruthy : Json → Bool
  | .jnull   => false
  | .jbool b => b
  | .jnum n  => n != 0
  | .jstr s  => s != ""
  | .jarr _  => true
  | .jobj _  => true

/-- Own enumerable fields used by `for (const key in source)` and
`Object.assign`.  The generators only ever pass parsed config objects here;
for the non-object JSON values that the TypeScript types exclude (where JS
`for..in` would enumerate array/string index keys) the model returns no
fields. -/
def jsOwnFields : Json → JObj
  | .jobj l => l
  | _ => []

/-- Property read through an optional chain, `o?.[k]`. -/
def jsGet (o : Option Json) (k : String) : Option Json :=
  match o with
  | some (.jobj l) => jsLookup l k
  | _ => none

/-- `array.includes(x)` / `new Set` element equality (SameValueZero) on JSON
values.  Distinct parsed objects and arrays are distinct references in JS, so
they never compare equal here; primitives compare structurally. -/
def sameValueZero : Json → Json → Bool
  | .jnull, .jnull => true
  | .jbool a, .jbool b => a == b
  | .jnum a, .jnum b => a == b
  | .jstr a, .jstr b => a == b
  | _, _ => false

/-- `[...new Set(l)]`: keep the first occurrence of each element. -/
def dedupGo (seen : List Json) : List Json → List Json
  | [] => []
  | x :: xs =>
      if seen.any (fun y => sameValueZero y x) then dedupGo seen xs
      else x :: dedupGo (x :: seen) xs

/-- `build/merge.ts` `ArrayMergeStrategy`. -/
inductive ArrayStrategy where
  | replace | merge | unique
deriving DecidableEq

/-- `(result[key] as any[]) || []` in the `merge`/`unique` branches: an array
is used as-is, a missing or `null` target contributes `[]`.  (For other
truthy non-array targets the JS source would spread a non-array, which no
caller in this repository does.) -/
def jsArrOrEmpty : Option Json → List Json
  | some (.jarr a) => a
  | _ => []

/-- Array combination per strategy (`build/merge.ts`, lines of `deepMerge`). -/
def applyStrat (strat : ArrayStrategy) (tv : Option Json) (src : List Json) : Json :=
  match strat with
  | .replace => .jarr src
  | .merge => .jarr (jsArrOrEmpty tv ++ src)
  | .unique => .jarr (dedupGo [] (jsArrOrEmpty tv ++ src))

mutual
/-- `deepMerge(target, source, { arrayStrategy })` from `build/merge.ts`:
fold the source fields left to right into a copy of the target. -/
def deepMerge (strat : ArrayStrategy) (t : JObj) : JObj → JObj
  | [] => t
  | (k, v) :: rest => deepMerge strat (mergeStep strat t k v) rest
termination_by s => sizeOf s

/-- One iteration of `deepMerge`'s `for (const key in source)` loop. -/
def mergeStep (strat : ArrayStrategy) (t : JObj) (k : String) : Json → JObj
  | .jnull => t
  | .jarr a => setKey t k (applyStrat strat (jsLookup t k) a)
  | .jobj o =>
      match jsLookup t k with
      | some (.jobj tsub) => setKey t k (.jobj (deepMerge strat tsub o))
      | _ => setKey t k (.jobj o)
  | v => setKey t k v
termination_by v => sizeOf v
end

/-- `hay.includes(needle)`: substring test. -/
def strIncludes (hay needle : String) : Bool :=
  hay.data.tails.any (fun t => needle.data.isPrefixOf t)

/-- `s.startsWith(pre)`. -/
def strStartsWith (s pre : String) : Bool := pre.data.isPrefixOf s.data

/-- `s.endsWith(suf)`. -/
def strEndsWith (s suf : String) : Bool := suf.data.isSuffixOf s.data

/-- The JavaScript `\s` character class (regex whitespace). -/
def jsSpace (c : Char) : Bool :=
  [' ', '\t', '\n', '\r', '\x0b', '\x0c', ' ', ' ', ' ',
   ' ', ' ', ' ', ' ', ' ', ' ', ' ',
   ' ', ' ', ' ', ' ', ' ', ' ', ' ',
   '　', '﻿'].contains c

/-- `s.replace("mm", "")`: remove the leftmost occurrence of `"mm"`. -/
def replaceFirstMM : List Char → List Char
  | 'm' :: 'm' :: rest => rest
  | c :: rest => c :: replaceFirstMM rest
  | [] => []

/-- `nozzle.replace("mm", "")` on strings. -/
def stripMM (s : String) : String := String.mk (replaceFirstMM s.data)

mutual
/-- `s.replace(/\s+/g, "-")`, scanning outside a whitespace run. -/
def dashGo : List Char → List Char
  | [] => []
  | c :: rest => if jsSpace c then '-' :: dashSkip rest else c :: dashGo rest
/-- `s.replace(/\s+/g, "-")`, inside a whitespace run already replaced. -/
def dashSkip : List Char → List Char
  | [] => []
  | c :: rest => if jsSpace c then dashSkip rest else c :: dashGo rest
end

/-- `printerName.replace(/\s+/g, "-")`: each maximal whitespace run becomes
one dash. -/
def dashName (s : String) : String := String.mk (dashGo s.data)

/-!
The two regex helpers of `build/generators/bambuslicer.ts`:

```
extractPrinterName: printerString.replace(/\s+\d+\.\d+\s+nozzle$/, "")
extractNozzleSize:  printerString.match(/(\d+\.\d+)\s+nozzle$/)
```

Both patterns are anchored at the end of the string, so a match — if one
exists — is forced to decompose the string as
`prefix ++ D1 ++ "." ++ D2 ++ W ++ "nozzle"` (plus a leading whitespace run
`W1` for `extractPrinterName`), where `D1`, `D2` are digit runs and `W`,
`W1` whitespace runs.  Each `\d+`/`\s+` must abut its neighbour, so every
run is the maximal run at its position, and JS's leftmost-match rule makes
`D1` (resp. `W1`) maximal on the left as well.  The model therefore parses
the reversed character list with `takeWhile`, which yields exactly these
maximal runs. -/

/-- `extractNozzleSize` on the reversed character list: returns the capture
group of `/(\d+\.\d+)\s+nozzle$/`, if the pattern matches. -/
def extractNozzleSizeAux : List Char → Option String
  | 'e' :: 'l' :: 'z' :: 'z' :: 'o' :: 'n' :: rest =>
      let w := rest.takeWhile jsSpace
      let r1 := rest.dropWhile jsSpace
      if w.isEmpty then none else
      let d2 := r1.takeWhile Char.isDigit
      let r2 := r1.dropWhile Char.isDigit
      if d2.isEmpty then none else
      match r2 with
      | '.' :: r3 =>
          let d1 := r3.takeWhile Char.isDigit
          if d1.isEmpty then none
          else some (String.mk (d1.reverse ++ '.' :: d2.reverse))
      | _ => none
  | _ => none

/-- `extractNozzleSize(printerString)` from `build/generators/bambuslicer.ts`. -/
def extractNozzleSize (t : String) : Option String :=
  extractNozzleSizeAux t.data.reverse

/-- `extractPrinterName` on the reversed character list: the reversed prefix
left after removing the `/\s+\d+\.\d+\s+nozzle$/` suffix, if it matches. -/
def extractPrinterNameAux : List Char → Option (List Char)
  | 'e' :: 'l' :: 'z' :: 'z' :: 'o' :: 'n' :: rest =>
      let w2 := rest.takeWhile jsSpace
      let r1 := rest.dropWhile jsSpace
      if w2.isEmpty then none else
      let d2 := r1.takeWhile Char.isDigit
      let r2 := r1.dropWhile Char.isDigit
      if d2.isEmpty then none else
      match r2 with
      | '.' :: r3 =>
          let d1 := r3.takeWhile Char.isDigit
          let r4 := r3.dropWhile Char.isDigit
          if d1.isEmpty then none else
          let w1 := r4.takeWhile jsSpace
          let r5 := r4.dropWhile jsSpace
          if w1.isEmpty then none else some r5
      | _ => none
  | _ => none

/-- `extractPrinterName(printerString)` from `build/generators/bambuslicer.ts`:
the string with a trailing `" {d.d} nozzle"` removed, or unchanged when the
pattern does not match. -/
def extractPrinterName (t : String) : String :=
  match extractPrinterNameAux t.data.reverse with
  | some r => String.mk r.reverse
  | none => t

/-- `AllOverrides` from `build/loaders.ts`: the three optional override
layers as loaded from `printers.json`, `nozzles.json` and
`combinations/{printer}-{nozzle}.json` (absent file = `none`). -/
structure AllOverrides where
  printers : Option Json
  nozzles : Option Json
  combination : Option Json

/-- One entry of the `config/printers.json` capability table. -/
structure PrinterData where
  slicers : List String
  nozzles : List String

/-- The file-system inputs the Bambu generator reads, for one
(material, slicer) pair: the base config (an object when `base.json` exists
and parses), the two override tables, the combination override file keyed by
(printer name, nozzle size), and the `config/printers.json` printer table. -/
structure BambuEnv where
  baseConfig : Option JObj
  printersJson : Option Json
  nozzlesJson : Option Json
  combinationJson : String → String → Option Json
  printersTable : List (String × PrinterData)

/-- `applyPrinterOverrides` (`bambuslicer.ts`): skip when
`overrides?.printers?.[printer]` is falsy, else deep-merge the fragment with
the default `replace` array strategy. -/
def bApplyPrinterOverrides (config : JObj) (ov : AllOverrides) (printer : String) : JObj :=
  match jsGet ov.printers printer with
  | some f => if jsTruthy f then deepMerge .replace config (jsOwnFields f) else config
  | none => config

/-- `applyNozzleOverrides` (`bambuslicer.ts`). -/
def bApplyNozzleOverrides (config : JObj) (ov : AllOverrides) (nozzle : String) : JObj :=
  match jsGet ov.nozzles nozzle with
  | some f => if jsTruthy f then deepMerge .replace config (jsOwnFields f) else config
  | none => config

/-- `applyCombinationOverrides` (`bambuslicer.ts`): the guard tests the whole
`overrides.combination` value; the printer/nozzle arguments are unused. -/
def bApplyCombinationOverrides (config : JObj) (ov : AllOverrides)
    (_printer _nozzle : String) : JObj :=
  match ov.combination with
  | some f => if jsTruthy f then deepMerge .replace config (jsOwnFields f) else config
  | none => config

/-- The two post-merge assignments of `generateConfig` (`bambuslicer.ts`):
`config.compatible_printers = [printer]`, then
`if (config.version) config.version = version`. -/
def bambuPostProcess (config : JObj) (printer version : String) : JObj :=
  let c := setKey config "compatible_printers" (.jarr [.jstr printer])
  if jsTruthy ((jsLookup c "version").getD .jnull)
  then setKey c "version" (.jstr version) else c

/-- The pure part of `generateConfig` (`bambuslicer.ts`) once the base config
is loaded and the nozzle size extracted: clone the base (structural identity
in the model), apply the three override layers in specificity order, then
force `compatible_printers` and `version`. -/
def bambuResolve (env : BambuEnv) (base : JObj) (printer nozzleSize version : String) : JObj :=
  let printerName := extractPrinterName printer
  let overrides : AllOverrides :=
    ⟨env.printersJson, env.nozzlesJson, env.combinationJson printerName nozzleSize⟩
  let c := bApplyPrinterOverrides base overrides printerName
  let c := bApplyNozzleOverrides c overrides nozzleSize
  let c := bApplyCombinationOverrides c overrides printerName nozzleSize
  bambuPostProcess c printer version

/-- `generateConfig` (`bambuslicer.ts`): throws when the base config is
missing or the printer string has no extractable nozzle size. -/
def bambuGenerateConfig (env : BambuEnv) (material _slicer printer version : String) :
    Except String JObj :=
  match env.baseConfig with
  | none => .error ("Base config not found for material: " ++ material)
  | some base =>
      match extractNozzleSize printer with
      | none => .error ("Could not extract nozzle size from printer string: " ++ printer)
      | some nozzleSize => .ok (bambuResolve env base printer nozzleSize version)

/-- The compatible-printer enumeration loop of `generateAllConfigs`
(`bambuslicer.ts`): one identifier `"{printerKey} {nozzle-mm} nozzle"` per
nozzle of each printer whose `slicers` include `"bambuslicer"`. -/
def enumCompatible (tbl : List (String × PrinterData)) : List String :=
  tbl.flatMap (fun p =>
    if p.2.slicers.contains "bambuslicer"
    then p.2.nozzles.map (fun nz => p.1 ++ " " ++ stripMM nz ++ " nozzle")
    else [])

/-- One generated artifact (`ConfigData` in `bambuslicer.ts`). -/
structure ConfigData where
  material : String
  printer : String
  nozzle : String
  printerString : String
  config : JObj
  filename : String

/-- Filename built for each artifact in `generateAllConfigs`
(`bambuslicer.ts`). -/
def bambuFilename (material printerName nozzleSize version : String) : String :=
  "addnorth_" ++ material ++ "_" ++ dashName printerName ++ "_" ++ nozzleSize
    ++ "mm_" ++ version ++ ".json"

/-- The generation loop of `generateAllConfigs` (`bambuslicer.ts`): build one
artifact per identifier; any error (the `catch` re-throws) aborts the whole
run. -/
def bambuCollect (env : BambuEnv) (material slicer version : String) :
    List String → Except String (List ConfigData)
  | [] => .ok []
  | printer :: rest => do
      let config ← bambuGenerateConfig env material slicer printer version
      let printerName := extractPrinterName printer
      match extractNozzleSize printer with
      | none => .error ("Could not extract nozzle size from: " ++ printer)
      | some nozzleSize => do
          let tail ← bambuCollect env material slicer version rest
          .ok (⟨material, printerName, nozzleSize, printer, config,
                bambuFilename material printerName nozzleSize version⟩ :: tail)

/-- `generateAllConfigs` (`bambuslicer.ts`): missing base config is a skip
(empty artifact list), otherwise one artifact per enumerated compatible
printer. -/
def bambuGenerateAllConfigs (env : BambuEnv) (material slicer version : String) :
    Except String (List ConfigData) :=
  match env.baseConfig with
  | none => .ok []
  | some _ => bambuCollect env material slicer version (enumCompatible env.printersTable)

/-- `Object.assign(target, src)`: copy every own field of `src` into the
target (no `null` skipping, no recursion). -/
def objAssign (target : JObj) (src : Json) : JObj :=
  (jsOwnFields src).foldl (fun acc kv => setKey acc kv.1 kv.2) target

/-- `GenerateOptions` of `build/generators/prusaslicer.ts`. -/
structure PrusaOptions where
  dryRun : Bool := false
  verbose : Bool := false
  printer : Option String := none
  nozzle : Option String := none

/-- Truthiness of a possibly-undefined JS string (`printer && nozzle`). -/
def jsStrTruthy : Option String → Bool
  | some s => s != ""
  | none => false

/-- The file-system inputs of the PrusaSlicer generator for one
(material, slicer) pair. -/
structure PrusaEnv where
  baseConfig : Option INIObj
  printersJson : Option Json
  nozzlesJson : Option Json
  combinationJson : String → String → Option Json

/-- `applyPrinterOverrides` (`prusaslicer.ts`): shallow-assign the printer
fragment onto every section whose name starts with `"print:"` and contains
the printer name. -/
def pApplyPrinterOverrides (config : INIObj) (ov : AllOverrides) (printer : String) : INIObj :=
  match jsGet ov.printers printer with
  | some f =>
      if jsTruthy f then
        config.map (fun s =>
          if strStartsWith s.1 "print:" && strIncludes s.1 printer
          then (s.1, objAssign s.2 f) else s)
      else config
  | none => config

/-- `applyNozzleOverrides` (`prusaslicer.ts`): shallow-assign the nozzle
fragment onto every section whose name contains `"{nozzle-mm}nozzle"` or the
literal nozzle string. -/
def pApplyNozzleOverrides (config : INIObj) (ov : AllOverrides) (nozzle : String) : INIObj :=
  match jsGet ov.nozzles nozzle with
  | some f =>
      if jsTruthy f then
        let pat := stripMM nozzle
        config.map (fun s =>
          if strIncludes s.1 (pat ++ "nozzle") || strIncludes s.1 nozzle
          then (s.1, objAssign s.2 f) else s)
      else config
  | none => config

/-- `applyCombinationOverrides` (`prusaslicer.ts`): sections matching both
the printer and the nozzle patterns. -/
def pApplyCombinationOverrides (config : INIObj) (ov : AllOverrides)
    (printer nozzle : String) : INIObj :=
  match ov.combination with
  | some f =>
      if jsTruthy f then
        let pat := stripMM nozzle
        config.map (fun s =>
          if strIncludes s.1 printer
             && (strIncludes s.1 (pat ++ "nozzle") || strIncludes s.1 nozzle)
          then (s.1, objAssign s.2 f) else s)
      else config
  | none => config

/-- `if (config.vendor && config.vendor.config_version)
config.vendor.config_version = version` at the end of `generateConfig`
(`prusaslicer.ts`); a present section object is always truthy. -/
def pSetVendorVersion (config : INIObj) (version : String) : INIObj :=
  match jsLookup config "vendor" with
  | some vsec =>
      if jsTruthy ((jsLookup vsec "config_version").getD .jnull)
      then setKey config "vendor" (setKey vsec "config_version" (.jstr version))
      else config
  | none => config

/-- `generateConfig` (`prusaslicer.ts`): missing base config throws; the
override layers are loaded and applied only when both the `printer` and the
`nozzle` option are truthy. -/
def prusaGenerateConfig (env : PrusaEnv) (material _slicer version : String)
    (opts : PrusaOptions) : Except String INIObj :=
  match env.baseConfig with
  | none => .error ("Base config not found for material: " ++ material)
  | some base =>
      let config := base
      let config :=
        match opts.printer, opts.nozzle with
        | some p, some n =>
            if p != "" && n != "" then
              let ov : AllOverrides :=
                ⟨env.printersJson, env.nozzlesJson, env.combinationJson p n⟩
              pApplyCombinationOverrides
                (pApplyNozzleOverrides (pApplyPrinterOverrides config ov p) ov n) ov p n
            else config
        | _, _ => config
      .ok (pSetVendorVersion config version)

/-- One generated artifact (`PrusaConfigData` in `prusaslicer.ts`). -/
structure PrusaConfigData where
  material : String
  config : INIObj
  filename : String

/-- `generateAllConfigs` (`prusaslicer.ts`): missing base config yields an
empty artifact list ("skipping"), otherwise exactly one artifact with
filename `addnorth_{material}_{version}.ini`. -/
def prusaGenerateAllConfigs (env : PrusaEnv) (material slicer version : String)
    (opts : PrusaOptions) : Except String (List PrusaConfigData) :=
  match env.baseConfig with
  | none => .ok []
  | some _ => do
      let config ← prusaGenerateConfig env material slicer version opts
      .ok [⟨material, config, "addnorth_" ++ material ++ "_" ++ version ++ ".ini"⟩]

/-- `GeneratorType` of `build/generators/index.ts`. -/
inductive Fmt where
  | ini | json
deriving DecidableEq

/-- `detectFormatFromPath` (`build/generators/index.ts`). -/
def detectFormatFromPath (filePath : String) : Option Fmt :=
  if strEndsWith filePath ".ini" then some .ini
  else if strEndsWith filePath ".json" then some .json
  else none

/-- `detectFormat` (`build/generators/index.ts`): file extension first, then
the content heuristic.  An absent or empty path behaves identically (both
fall through to the content checks). -/
def detectFormat (baseConfig : Json) (filePath : Option String) : Option Fmt :=
  let fromPath :=
    match filePath with
    | some fp => detectFormatFromPath fp
    | none => none
  match fromPath with
  | some f => some f
  | none =>
      match baseConfig with
      | .jnull | .jbool _ | .jnum _ | .jstr _ => none
      | .jarr _ => none
      | .jobj l =>
          if l.any (fun kv => strIncludes kv.1 "vendor" || strIncludes kv.1 "filament:")
          then some .ini
          else if jsTruthy ((jsLookup l "compatible_printers").getD .jnull)
                  || jsTruthy ((jsLookup l "filament_settings_id").getD .jnull)
                  || jsTruthy ((jsLookup l "filament_type").getD .jnull)
          then some .json
          else some .json

/-- Outcome of one `fs.readFile` call. -/
inductive FsOutcome where
  | content (s : String)
  | ioError (code : String)

/-- `loadJSON` (`build/loaders.ts`): `ENOENT`/`EPERM` read failures yield
`null`; other read failures and parse failures are wrapped errors.  The
parser is passed in abstractly (`JSON.parse`, throwing = `none`). -/
def loadJSON (read : FsOutcome) (parse : String → Option Json) :
    Except String (Option Json) :=
  match read with
  | .ioError code =>
      if code == "ENOENT" || code == "EPERM" then .ok none
      else .error ("Failed to load JSON file: read error " ++ code)
  | .content s =>
      match parse s with
      | some j => .ok (some j)
      | none => .error "Failed to load JSON file: parse error"

/-- `loadINI` (`build/loaders.ts`), same structure over `ini.parse`. -/
def loadINI (read : FsOutcome) (parse : String → Option INIObj) :
    Except String (Option INIObj) :=
  match read with
  | .ioError code =>
      if code == "ENOENT" || code == "EPERM" then .ok none
      else .error ("Failed to load INI file: read error " ++ code)
  | .content s =>
      match parse s with
      | some j => .ok (some j)
      | none => .error "Failed to load INI file: parse error"

/-- `ConfigValidationResult` of `build/validate.ts`. -/
structure ConfigValidationResult where
  isValid : Bool
  errors : List String
  warnings : List String

/-- The `!config.x || !Array.isArray(config.x)` required-field test of
`validateBambuConfig`: passes exactly for a present array value (arrays are
always truthy). -/
def requiredArrayOk (config : JObj) (key : String) : Bool :=
  match jsLookup config key with
  | some (.jarr _) => true
  | _ => false

/-- `validateBambuConfig` (`build/validate.ts`). -/
def validateBambuConfig (config : JObj) : ConfigValidationResult :=
  let errors :=
    (if requiredArrayOk config "compatible_printers" then []
     else ["Missing or invalid compatible_printers array"])
    ++ (if requiredArrayOk config "filament_settings_id" then []
        else ["Missing or invalid filament_settings_id"])
    ++ (if requiredArrayOk config "filament_type" then []
        else ["Missing or invalid filament_type"])
  let warnings :=
    match jsLookup config "compatible_printers" with
    | some v =>
        if jsTruthy v then
          match v with
          | .jarr a =>
              if a.length != 1 then
                ["Expected exactly one printer in compatible_printers, found "
                  ++ toString a.length]
              else []
          | _ => []
        else []
    | none => []
  ⟨errors.isEmpty, errors, warnings⟩

/-! ## Association-list lemmas -/

theorem jsLookup_setKey_self (l : List (String × α)) (k : String) (v : α) :
    jsLookup (setKey l k v) k = some v := by
  induction l with
  | nil => simp [setKey, jsLookup]
  | cons hd t ih =>
      obtain ⟨k', v'⟩ := hd
      by_cases hk : k' = k
      · simp [setKey, hk, jsLookup]
      · simp [setKey, hk, jsLookup, ih]

theorem jsLookup_setKey_ne (l : List (String × α)) (k' k : String) (v : α)
    (h : k' ≠ k) : jsLookup (setKey l k' v) k = jsLookup l k := by
  induction l with
  | nil => simp [setKey, jsLookup, h]
  | cons hd t ih =>
      obtain ⟨k'', v'⟩ := hd
      by_cases hk : k'' = k'
      · simp [setKey, hk, jsLookup, h, hk ▸ h]
      · simp [setKey, hk, jsLookup, ih]

theorem jsLookup_eq_none_of_not_mem (l : List (String × α)) (k : String)
    (h : k ∉ l.map Prod.fst) : jsLookup l k = none := by
  induction l with
  | nil => simp [jsLookup]
  | cons hd t ih =>
      obtain ⟨k', v'⟩ := hd
      simp only [List.map_cons, List.mem_cons, not_or] at h
      simp [jsLookup, Ne.symm h.1, ih h.2]

theorem jsLookup_mergeStep_ne (strat : ArrayStrategy) (t : JObj) (k' k : String)
    (v : Json) (h : k' ≠ k) :
    jsLookup (mergeStep strat t k' v) k = jsLookup t k := by
  cases v with
  | jnull => simp [mergeStep]
  | jbool b => simp [mergeStep, jsLookup_setKey_ne _ _ _ _ h]
  | jnum n => simp [mergeStep, jsLookup_setKey_ne _ _ _ _ h]
  | jstr s => simp [mergeStep, jsLookup_setKey_ne _ _ _ _ h]
  | jarr a => simp [mergeStep, jsLookup_setKey_ne _ _ _ _ h]
  | jobj o =>
      simp only [mergeStep]
      cases hl : jsLookup t k' with
      | none => simp [jsLookup_setKey_ne _ _ _ _ h]
      | some w => cases w <;> simp [jsLookup_setKey_ne _ _ _ _ h]

/-- What `deepMerge` leaves at key `k`, as a function of the target and
source values at `k` (keys of a parsed source object are distinct). -/
def mergeOutcome (strat : ArrayStrategy) (tv : Option Json) : Option Json → Option Json
  | none => tv
  | some .jnull => tv
  | some (.jarr a) => some (applyStrat strat tv a)
  | some (.jobj o) =>
      match tv with
      | some (.jobj tsub) => some (.jobj (deepMerge strat tsub o))
      | _ => some (.jobj o)
  | some v => some v

theorem jsLookup_deepMerge (strat : ArrayStrategy) (t s : JObj) (k : String)
    (hnd : (s.map Prod.fst).Nodup) :
    jsLookup (deepMerge strat t s) k = mergeOutcome strat (jsLookup t k) (jsLookup s k) := by
  induction s generalizing t with
  | nil => simp [deepMerge, jsLookup, mergeOutcome]
  | cons hd rest ih =>
      obtain ⟨k', v⟩ := hd
      simp only [List.map_cons, List.nodup_cons] at hnd
      obtain ⟨hk'notin, hndrest⟩ := hnd
      by_cases hk : k' = k
      · subst hk
        have hrest : jsLookup rest k' = none :=
          jsLookup_eq_none_of_not_mem _ _ hk'notin
        rw [deepMerge, ih _ hndrest, hrest]
        have hself : jsLookup ((k', v) :: rest) k' = some v := by simp [jsLookup]
        rw [hself]
        cases v with
        | jnull => simp [mergeStep, mergeOutcome]
        | jbool b => simp [mergeStep, mergeOutcome, jsLookup_setKey_self]
        | jnum n => simp [mergeStep, mergeOutcome, jsLookup_setKey_self]
        | jstr s => simp [mergeStep, mergeOutcome, jsLookup_setKey_self]
        | jarr a => simp [mergeStep, mergeOutcome, jsLookup_setKey_self]
        | jobj o =>
            simp only [mergeStep, mergeOutcome]
            cases hl : jsLookup t k' with
            | none => simp [jsLookup_setKey_self]
            | some w => cases w <;> simp [jsLookup_setKey_self]
      · rw [deepMerge, ih _ hndrest, jsLookup_mergeStep_ne _ _ _ _ _ hk]
        have : jsLookup ((k', v) :: rest) k = jsLookup rest k := by simp [jsLookup, hk]
        rw [this]

/-- C2: for every target object holding `[1,2]` at a key and source object
holding `[2,3]` at the same key, `deepMerge` yields `[2,3]` under `replace`,
`[1,2,2,3]` under `merge` and `[1,2,3]` under `unique` at that key; and a
`null` or absent source value leaves the target value unchanged. -/
theorem claim_C2_array_strategies (t s : JObj) (k : String)
    (hnd : (s.map Prod.fst).Nodup) :
    (jsLookup t k = some (.jarr [.jnum 1, .jnum 2]) →
     jsLookup s k = some (.jarr [.jnum 2, .jnum 3]) →
       jsLookup (deepMerge .replace t s) k = some (.jarr [.jnum 2, .jnum 3]) ∧
       jsLookup (deepMerge .merge t s) k
         = some (.jarr [.jnum 1, .jnum 2, .jnum 2, .jnum 3]) ∧
       jsLookup (deepMerge .unique t s) k
         = some (.jarr [.jnum 1, .jnum 2, .jnum 3])) ∧
    (∀ strat : ArrayStrategy,
      jsLookup s k = some .jnull ∨ jsLookup s k = none →
      jsLookup (deepMerge strat t s) k = jsLookup t k) := by
  constructor
  · intro ht hs
    refine ⟨?_, ?_, ?_⟩ <;> rw [jsLookup_deepMerge _ _ _ _ hnd, ht, hs] <;> rfl
  · intro strat h
    rcases h with h | h <;> rw [jsLookup_deepMerge _ _ _ _ hnd, h] <;> rfl

/-- Witness for C2 at the spec's concrete arrays (the `unique` clause). -/
theorem claim_C2_witness :
    jsLookup (deepMerge .unique [("a", Json.jarr [Json.jnum 1, Json.jnum 2])]
        [("a", Json.jarr [Json.jnum 2, Json.jnum 3])]) "a"
      = some (Json.jarr [Json.jnum 1, Json.jnum 2, Json.jnum 3]) :=
  ((claim_C2_array_strategies
      [("a", Json.jarr [Json.jnum 1, Json.jnum 2])]
      [("a", Json.jarr [Json.jnum 2, Json.jnum 3])] "a"
      (by decide)).1 rfl rfl).2.2

/-- Fold one optional override fragment with the default `replace` policy
(absent fragments skipped) — the spec's resolution formula. -/
def oMerge (t : JObj) : Option JObj → JObj
  | some f => deepMerge .replace t f
  | none => t

/-- The spec's `resolve(B,P,N,C) = deepMerge(deepMerge(deepMerge(B,P),N),C)`
with absent fragments skipped (spec §8 "Merge precedence"). -/
def specResolve (b : JObj) (p n c : Option JObj) : JObj :=
  oMerge (oMerge (oMerge b p) n) c

/-- A Bambu environment whose override files carry exactly the three given
fragments for the given printer name and nozzle size. -/
def mkBambuEnv (b : JObj) (p n c : Option JObj) (printerName nozzleSize : String) :
    BambuEnv :=
  ⟨some b,
   p.map (fun f => .jobj [(printerName, .jobj f)]),
   n.map (fun f => .jobj [(nozzleSize, .jobj f)]),
   fun _ _ => c.map .jobj,
   []⟩

/-- C1: for every base config `B` and override fragments `P`, `N`, `C`, the
JSON generator's `generateConfig` equals
`deepMerge(deepMerge(deepMerge(B,P),N),C)` (default `replace` array policy,
absent fragments skipped) followed by the forced `compatible_printers` and
`version` assignments — so on overlapping keys combination beats nozzle
beats printer beats base. -/
theorem claim_C1_generateConfig_refines_fold (b : JObj) (p n c : Option JObj)
    (ps m sl ver nz : String) (h : extractNozzleSize ps = some nz) :
    bambuGenerateConfig (mkBambuEnv b p n c (extractPrinterName ps) nz) m sl ps ver
      = .ok (bambuPostProcess (specResolve b p n c) ps ver) := by
  simp only [bambuGenerateConfig, mkBambuEnv, h]
  cases p <;> cases n <;> cases c <;>
    simp [bambuResolve, bApplyPrinterOverrides, bApplyNozzleOverrides,
          bApplyCombinationOverrides, jsGet, jsLookup, jsTruthy, jsOwnFields,
          specResolve, oMerge, Option.map]

/-- Witness for C1: concrete base, fragments and printer string. -/
theorem claim_C1_witness :
    bambuGenerateConfig
        (mkBambuEnv [("filament_type", Json.jarr [Json.jstr "PLA"])]
          (some [("nozzle_temperature", Json.jarr [Json.jnum 200, Json.jnum 200])])
          (some [("perimeter_speed", Json.jnum 50)]) none
          (extractPrinterName "X1C 0.4 nozzle") "0.4")
        "pla" "bambuslicer" "X1C 0.4 nozzle" "v1"
      = .ok (bambuPostProcess
          (specResolve [("filament_type", Json.jarr [Json.jstr "PLA"])]
            (some [("nozzle_temperature", Json.jarr [Json.jnum 200, Json.jnum 200])])
            (some [("perimeter_speed", Json.jnum 50)]) none)
          "X1C 0.4 nozzle" "v1") :=
  claim_C1_generateConfig_refines_fold _ _ _ _ _ "pla" "bambuslicer" "v1" "0.4" rfl

/-- C4: whenever the INI base config exists, `generateAllConfigs` of the
PrusaSlicer generator returns exactly one artifact — whatever override
files or options are present — named `addnorth_{material}_{version}.ini`. -/
theorem claim_C4_ini_single_artifact (env : PrusaEnv) (base : INIObj)
    (m sl v : String) (opts : PrusaOptions) (h : env.baseConfig = some base) :
    ∃ cfg, prusaGenerateAllConfigs env m sl v opts
      = .ok [⟨m, cfg, "addnorth_" ++ m ++ "_" ++ v ++ ".ini"⟩] := by
  simp only [prusaGenerateAllConfigs, prusaGenerateConfig, h]
  exact ⟨_, rfl⟩

/-- Witness for C4: a concrete environment with a base config and overrides. -/
theorem claim_C4_witness :
    ∃ cfg, prusaGenerateAllConfigs
        ⟨some [("vendor", [("name", Json.jstr "addnorth")])],
         some (.jobj [("MK4", .jobj [("speed", Json.jnum 9)])]), none,
         fun _ _ => none⟩
        "pla" "prusaslicer" "v1" {}
      = .ok [⟨"pla", cfg, "addnorth_" ++ "pla" ++ "_" ++ "v1" ++ ".ini"⟩] :=
  claim_C4_ini_single_artifact _ _ "pla" "prusaslicer" "v1" {} rfl

/-- C5 counterexample: with a printer override present, running the INI
generator's `generateConfig` with the `printer`/`nozzle` options set gives a
different config than running it with them unset — the options are consumed
by the generator, not only by the caller's post-hoc filter. -/
theorem claim_C5_counterexample :
    prusaGenerateConfig
        ⟨some [("print:MK4", [("speed", Json.jnum 1)])],
         some (.jobj [("MK4", .jobj [("speed", Json.jnum 99)])]), none,
         fun _ _ => none⟩
        "pla" "prusaslicer" "v1"
        { printer := some "MK4", nozzle := some "0.4mm" }
      ≠ prusaGenerateConfig
        ⟨some [("print:MK4", [("speed", Json.jnum 1)])],
         some (.jobj [("MK4", .jobj [("speed", Json.jnum 99)])]), none,
         fun _ _ => none⟩
        "pla" "prusaslicer" "v1" {} := by
  intro h
  have h1 : (fun e : Except String INIObj =>
      match e with
      | .ok c => (jsLookup c "print:MK4").map (fun sec =>
          match jsLookup sec "speed" with
          | some (.jnum n) => n
          | _ => 0)
      | .error _ => none)
      (prusaGenerateConfig
        ⟨some [("print:MK4", [("speed", Json.jnum 1)])],
         some (.jobj [("MK4", .jobj [("speed", Json.jnum 99)])]), none,
         fun _ _ => none⟩
        "pla" "prusaslicer" "v1"
        { printer := some "MK4", nozzle := some "0.4mm" }) = some 99 := rfl
  have h2 : (fun e : Except String INIObj =>
      match e with
      | .ok c => (jsLookup c "print:MK4").map (fun sec =>
          match jsLookup sec "speed" with
          | some (.jnum n) => n
          | _ => 0)
      | .error _ => none)
      (prusaGenerateConfig
        ⟨some [("print:MK4", [("speed", Json.jnum 1)])],
         some (.jobj [("MK4", .jobj [("speed", Json.jnum 99)])]), none,
         fun _ _ => none⟩
        "pla" "prusaslicer" "v1" {}) = some 1 := rfl
  rw [h] at h1
  rw [h1] at h2
  exact absurd h2 (by decide)

/-- C5 (amended): the INI generator's `generateConfig` consumes the
`printer`/`nozzle` options itself — it loads and applies the override layers
exactly when both are truthy.  Noninterference holds in the remaining cases:
whenever the two options are not both truthy, the generated config equals
the run with both options unset. -/
theorem claim_C5_amended_options_unused_unless_both (env : PrusaEnv)
    (m sl v : String) (opts : PrusaOptions)
    (h : ¬(jsStrTruthy opts.printer = true ∧ jsStrTruthy opts.nozzle = true)) :
    prusaGenerateConfig env m sl v opts
      = prusaGenerateConfig env m sl v { opts with printer := none, nozzle := none } := by
  obtain ⟨d, vb, op, onz⟩ := opts
  rcases hb : env.baseConfig with _ | base
  · cases op <;> cases onz <;> simp [prusaGenerateConfig, hb]
  · cases op with
    | none => cases onz <;> simp [prusaGenerateConfig, hb]
    | some p =>
        cases onz with
        | none => simp [prusaGenerateConfig, hb]
        | some n =>
            simp only [jsStrTruthy, not_and] at h
            have hfalse : (p != "" && n != "") = false := by
              by_cases hp : p = ""
              · simp [hp]
              · have hn : n = "" := by
                  by_contra hn
                  exact h (by simp [bne_iff_ne, hp]) (by simp [bne_iff_ne, hn])
                simp [hn]
            simp [prusaGenerateConfig, hb, hfalse]

/-- Witness for C5 (amended): `printer` set but `nozzle` unset. -/
theorem claim_C5_amended_witness :
    prusaGenerateConfig
        ⟨some [("print:MK4", [("speed", Json.jnum 1)])],
         some (.jobj [("MK4", .jobj [("speed", Json.jnum 99)])]), none,
         fun _ _ => none⟩
        "pla" "prusaslicer" "v1" { printer := some "MK4" }
      = prusaGenerateConfig
        ⟨some [("print:MK4", [("speed", Json.jnum 1)])],
         some (.jobj [("MK4", .jobj [("speed", Json.jnum 99)])]), none,
         fun _ _ => none⟩
        "pla" "prusaslicer" "v1"
        { ({ printer := some "MK4" } : PrusaOptions) with printer := none, nozzle := none } :=
  claim_C5_amended_options_unused_unless_both _ "pla" "prusaslicer" "v1"
    { printer := some "MK4" } (by decide)

/-- C6 counterexample: with no base config, the INI generator's
`generateAllConfigs` silently returns the empty artifact list rather than
failing with an error. -/
theorem claim_C6_counterexample :
    prusaGenerateAllConfigs ⟨none, none, none, fun _ _ => none⟩
      "pla" "prusaslicer" "v1" {} = .ok [] := rfl

/-- C6 (amended): at the `generateAllConfigs` layer a missing INI base
config is a silent skip — the empty artifact list, not an error; the hard
error the spec describes lives in `generateConfig`, which does throw. -/
theorem claim_C6_amended_missing_base (env : PrusaEnv) (m sl v : String)
    (opts : PrusaOptions) (h : env.baseConfig = none) :
    prusaGenerateAllConfigs env m sl v opts = .ok [] ∧
    ∃ msg, prusaGenerateConfig env m sl v opts = .error msg := by
  constructor
  · simp [prusaGenerateAllConfigs, h]
  · exact ⟨"Base config not found for material: " ++ m,
      by simp [prusaGenerateConfig, h]⟩

/-- Witness for C6 (amended). -/
theorem claim_C6_amended_witness :
    prusaGenerateAllConfigs ⟨none, some (.jobj []), none, fun _ _ => none⟩
        "asa" "prusaslicer" "v2" {} = .ok [] ∧
    ∃ msg, prusaGenerateConfig ⟨none, some (.jobj []), none, fun _ _ => none⟩
        "asa" "prusaslicer" "v2" {} = .error msg :=
  claim_C6_amended_missing_base _ "asa" "prusaslicer" "v2" {} rfl

/-- C7 counterexample: a key *containing* `"filament:"` without starting
with it is classified `ini` by `detectFormat`, though the claim's
starts-with reading predicts `json`. -/
theorem claim_C7_counterexample :
    detectFormat (.jobj [("xfilament:y", Json.jnum 1)]) none = some .ini ∧
    strStartsWith "xfilament:y" "filament:" = false ∧
    strIncludes "xfilament:y" "vendor" = false ∧
    jsLookup [("xfilament:y", Json.jnum 1)] "compatible_printers" = none ∧
    jsLookup [("xfilament:y", Json.jnum 1)] "filament_settings_id" = none ∧
    jsLookup [("xfilament:y", Json.jnum 1)] "filament_type" = none := by
  refine ⟨rfl, rfl, by decide, rfl, rfl, rfl⟩

/-- The content-only classification rule, stated from the code: `ini` iff
some top-level key contains `"vendor"` or contains `"filament:"`, else
`json` for any other non-array object, `null` for arrays and non-objects. -/
def detectFormatSpec (j : Json) : Option Fmt :=
  match j with
  | .jobj l =>
      if l.any (fun kv => strIncludes kv.1 "vendor" || strIncludes kv.1 "filament:")
      then some .ini else some .json
  | _ => none

/-- C7 (amended): with no file path, `detectFormat` classifies `ini` exactly
when some top-level key *contains* `"vendor"` or *contains* `"filament:"`
(not merely "starts with `filament:`"); every other non-array object is
`json` (the `compatible_printers`/`filament_settings_id`/`filament_type`
check cannot change that, both its branches give `json`); arrays and
non-objects give `null`. -/
theorem claim_C7_amended_detectFormat (j : Json) :
    detectFormat j none = detectFormatSpec j := by
  cases j with
  | jobj l =>
      simp only [detectFormat, detectFormatSpec]
      split <;> [rfl; split <;> rfl]
  | jnull => rfl
  | jbool b => rfl
  | jnum n => rfl
  | jstr s => rfl
  | jarr a => rfl

/-- C8 counterexample: a permission-denied read (`EPERM`) — an I/O failure
other than file-not-found — is also tolerated by `loadJSON`, returning the
absent value instead of the hard error the claim requires. -/
theorem claim_C8_counterexample :
    loadJSON (.ioError "EPERM") (fun _ => none) = .ok none := rfl

/-- C8 (amended): the loaders tolerate exactly the `ENOENT` and `EPERM` read
failures (absent value, no error); every other read failure and every parse
failure of a present file is a hard error, and a successful parse is
returned as present. -/
theorem claim_C8_amended_loaders (parseJ : String → Option Json)
    (parseI : String → Option INIObj) (code s : String) :
    (loadJSON (.ioError "ENOENT") parseJ = .ok none) ∧
    (loadJSON (.ioError "EPERM") parseJ = .ok none) ∧
    (code ≠ "ENOENT" → code ≠ "EPERM" →
      ∃ msg, loadJSON (.ioError code) parseJ = .error msg) ∧
    (parseJ s = none → ∃ msg, loadJSON (.content s) parseJ = .error msg) ∧
    (∀ j, parseJ s = some j → loadJSON (.content s) parseJ = .ok (some j)) ∧
    (loadINI (.ioError "ENOENT") parseI = .ok none) ∧
    (loadINI (.ioError "EPERM") parseI = .ok none) ∧
    (code ≠ "ENOENT" → code ≠ "EPERM" →
      ∃ msg, loadINI (.ioError code) parseI = .error msg) ∧
    (parseI s = none → ∃ msg, loadINI (.content s) parseI = .error msg) ∧
    (∀ j, parseI s = some j → loadINI (.content s) parseI = .ok (some j)) := by
  refine ⟨rfl, rfl, ?_, ?_, ?_, rfl, rfl, ?_, ?_, ?_⟩
  · intro h1 h2
    exact ⟨"Failed to load JSON file: read error " ++ code,
      by simp [loadJSON, h1, h2]⟩
  · intro h
    exact ⟨"Failed to load JSON file: parse error", by simp [loadJSON, h]⟩
  · intro j h
    simp [loadJSON, h]
  · intro h1 h2
    exact ⟨"Failed to load INI file: read error " ++ code,
      by simp [loadINI, h1, h2]⟩
  · intro h
    exact ⟨"Failed to load INI file: parse error", by simp [loadINI, h]⟩
  · intro j h
    simp [loadINI, h]

/-- Witness for C8 (amended): concrete parsers, an `EACCES` error code and a
present file. -/
theorem claim_C8_amended_witness :
    (∃ msg, loadJSON (.ioError "EACCES") (fun _ => some .jnull) = .error msg) ∧
    loadJSON (.content "null") (fun _ => some .jnull) = .ok (some .jnull) := by
  have h := claim_C8_amended_loaders (fun _ => some .jnull)
    (fun _ => some []) "EACCES" "null"
  exact ⟨h.2.2.1 (by decide) (by decide), h.2.2.2.2.1 .jnull rfl⟩

/-- C9: `validateBambuConfig` rejects (with an error naming the field) any
config whose `filament_type` is missing or not an array, and likewise
requires `compatible_printers` and `filament_settings_id` to be present
arrays; when all three are present arrays and `compatible_printers` does not
have exactly one element, the result is valid with a warning and no error. -/
theorem claim_C9_validateBambuConfig (c : JObj) :
    ((∀ l, jsLookup c "filament_type" ≠ some (Json.jarr l)) →
      (validateBambuConfig c).isValid = false ∧
      ∃ e ∈ (validateBambuConfig c).errors, strIncludes e "filament_type" = true) ∧
    ((∀ l, jsLookup c "compatible_printers" ≠ some (Json.jarr l)) →
      (validateBambuConfig c).isValid = false) ∧
    ((∀ l, jsLookup c "filament_settings_id" ≠ some (Json.jarr l)) →
      (validateBambuConfig c).isValid = false) ∧
    (∀ cp sl tl, jsLookup c "compatible_printers" = some (Json.jarr cp) →
      jsLookup c "filament_settings_id" = some (Json.jarr sl) →
      jsLookup c "filament_type" = some (Json.jarr tl) →
      cp.length ≠ 1 →
      (validateBambuConfig c).isValid = true ∧
      (validateBambuConfig c).errors = [] ∧
      (validateBambuConfig c).warnings ≠ []) := by
  refine ⟨?_, ?_, ?_, ?_⟩
  · intro h
    have hreq : requiredArrayOk c "filament_type" = false := by
      unfold requiredArrayOk
      cases hl : jsLookup c "filament_type" with
      | none => rfl
      | some v => cases v <;> first | rfl | exact absurd hl (h _)
    constructor
    · simp [validateBambuConfig, hreq]
    · refine ⟨"Missing or invalid filament_type", ?_, by decide⟩
      simp [validateBambuConfig, hreq]
  · intro h
    have hreq : requiredArrayOk c "compatible_printers" = false := by
      unfold requiredArrayOk
      cases hl : jsLookup c "compatible_printers" with
      | none => rfl
      | some v => cases v <;> first | rfl | exact absurd hl (h _)
    simp [validateBambuConfig, hreq]
  · intro h
    have hreq : requiredArrayOk c "filament_settings_id" = false := by
      unfold requiredArrayOk
      cases hl : jsLookup c "filament_settings_id" with
      | none => rfl
      | some v => cases v <;> first | rfl | exact absurd hl (h _)
    simp [validateBambuConfig, hreq]
  · intro cp sl tl hcp hsl htl hlen
    have h1 : requiredArrayOk c "compatible_printers" = true := by
      unfold requiredArrayOk; rw [hcp]
    have h2 : requiredArrayOk c "filament_settings_id" = true := by
      unfold requiredArrayOk; rw [hsl]
    have h3 : requiredArrayOk c "filament_type" = true := by
      unfold requiredArrayOk; rw [htl]
    refine ⟨?_, ?_, ?_⟩
    · simp [validateBambuConfig, h1, h2, h3]
    · simp [validateBambuConfig, h1, h2, h3]
    · simp [validateBambuConfig, h1, h2, h3, hcp, jsTruthy, hlen]

/-- Witness for C9: a config missing `filament_type`, and one with two
compatible printers. -/
theorem claim_C9_witness :
    ((validateBambuConfig [("compatible_printers", Json.jarr [Json.jstr "A"])]).isValid
      = false ∧
     ∃ e ∈ (validateBambuConfig
        [("compatible_printers", Json.jarr [Json.jstr "A"])]).errors,
       strIncludes e "filament_type" = true) ∧
    ((validateBambuConfig
        [("compatible_printers", Json.jarr [Json.jstr "A", Json.jstr "B"]),
         ("filament_settings_id", Json.jarr [Json.jstr "id"]),
         ("filament_type", Json.jarr [Json.jstr "PLA"])]).isValid = true ∧
     (validateBambuConfig
        [("compatible_printers", Json.jarr [Json.jstr "A", Json.jstr "B"]),
         ("filament_settings_id", Json.jarr [Json.jstr "id"]),
         ("filament_type", Json.jarr [Json.jstr "PLA"])]).errors = [] ∧
     (validateBambuConfig
        [("compatible_printers", Json.jarr [Json.jstr "A", Json.jstr "B"]),
         ("filament_settings_id", Json.jarr [Json.jstr "id"]),
         ("filament_type", Json.jarr [Json.jstr "PLA"])]).warnings ≠ []) := by
  constructor
  · exact (claim_C9_validateBambuConfig _).1
      (fun l h => by simp [jsLookup] at h)
  · exact (claim_C9_validateBambuConfig _).2.2.2
      [Json.jstr "A", Json.jstr "B"] [Json.jstr "id"] [Json.jstr "PLA"]
      rfl rfl rfl (by decide)

/-! ## takeWhile/dropWhile helpers for the regex suffix analysis -/

theorem takeWhile_append_of_all (p : α → Bool) (l₁ l₂ : List α)
    (h : ∀ x ∈ l₁, p x = true) :
    (l₁ ++ l₂).takeWhile p = l₁ ++ l₂.takeWhile p := by
  induction l₁ with
  | nil => simp
  | cons a t ih =>
      simp [List.takeWhile_cons, h a (List.mem_cons_self a t),
            ih (fun x hx => h x (List.mem_cons_of_mem _ hx))]

theorem dropWhile_append_of_all (p : α → Bool) (l₁ l₂ : List α)
    (h : ∀ x ∈ l₁, p x = true) :
    (l₁ ++ l₂).dropWhile p = l₂.dropWhile p := by
  induction l₁ with
  | nil => simp
  | cons a t ih =>
      simp [List.dropWhile_cons, h a (List.mem_cons_self a t),
            ih (fun x hx => h x (List.mem_cons_of_mem _ hx))]

theorem takeWhile_cons_of_neg (p : α → Bool) (a : α) (l : List α)
    (h : p a = false) : (a :: l).takeWhile p = [] := by
  simp [List.takeWhile_cons, h]

theorem dropWhile_cons_of_neg (p : α → Bool) (a : α) (l : List α)
    (h : p a = false) : (a :: l).dropWhile p = a :: l := by
  simp [List.dropWhile_cons, h]

theorem head_false_of_dropWhile_cons (p : α → Bool) (l : List α) (y : α)
    (t : List α) (h : l.dropWhile p = y :: t) : p y = false := by
  induction l with
  | nil => simp [List.dropWhile] at h
  | cons a l' ih =>
      rw [List.dropWhile_cons] at h
      by_cases hp : p a = true
      · exact ih (by simpa [hp] using h)
      · simp [hp] at h
        rw [← h.1]
        simpa using hp

theorem mem_of_mem_dropWhile (p : α → Bool) (l : List α) {x : α}
    (h : x ∈ l.dropWhile p) : x ∈ l :=
  (List.dropWhile_sublist p (l := l)).subset h

theorem all_mem_takeWhile (p : α → Bool) (l : List α) :
    ∀ x ∈ l.takeWhile p, p x = true := by
  induction l with
  | nil => simp
  | cons a l' ih =>
      intro x hx
      rw [List.takeWhile_cons] at hx
      by_cases hp : p a = true
      · simp [hp] at hx
        rcases hx with rfl | hx
        · exact hp
        · exact ih x hx
      · simp [hp] at hx

/-- A whitespace character (JS `\s`) is never a decimal digit. -/
theorem jsSpace_not_isDigit (c : Char) (h : jsSpace c = true) :
    c.isDigit = false := by
  simp only [jsSpace, List.contains, List.elem_eq_mem, List.mem_cons,
    List.mem_singleton, List.not_mem_nil, or_false, decide_eq_true_eq] at h
  rcases h with (rfl|rfl|rfl|rfl|rfl|rfl|rfl|rfl|rfl|rfl|rfl|rfl|rfl|rfl|rfl|rfl|rfl|rfl|rfl|rfl|rfl|rfl|rfl|rfl|rfl) <;> decide

/-- A decimal digit is never JS whitespace. -/
theorem isDigit_not_jsSpace (c : Char) (h : c.isDigit = true) :
    jsSpace c = false := by
  cases hsp : jsSpace c with
  | false => rfl
  | true => exact absurd h (by simp [jsSpace_not_isDigit c hsp])

/-- Evaluation of the suffix parse on a well-formed
`… D1 "." D2 " nozzle"` tail (reversed input): the capture is `D1.D2`. -/
theorem extractNozzleSizeAux_decimal (a b rest : List Char)
    (ha : a ≠ []) (hb : b ≠ []) (hda : ∀ c ∈ a, c.isDigit = true)
    (hdb : ∀ c ∈ b, c.isDigit = true) :
    extractNozzleSizeAux
      ('e' :: 'l' :: 'z' :: 'z' :: 'o' :: 'n' ::
        (' ' :: (b.reverse ++ ('.' :: (a.reverse ++ (' ' :: rest))))))
      = some (String.mk (a ++ '.' :: b)) := by
  have hda' : ∀ c ∈ a.reverse, c.isDigit = true := fun c hc =>
    hda c (List.mem_reverse.mp hc)
  have hdb' : ∀ c ∈ b.reverse, c.isDigit = true := fun c hc =>
    hdb c (List.mem_reverse.mp hc)
  obtain ⟨c0, t0, hbr⟩ : ∃ c0 t0, b.reverse = c0 :: t0 := by
    cases hbr : b.reverse with
    | nil => exact absurd (List.reverse_eq_nil_iff.mp hbr) hb
    | cons c0 t0 => exact ⟨c0, t0, rfl⟩
  have hc0 : c0.isDigit = true := hdb' c0 (hbr ▸ List.mem_cons_self c0 t0)
  have hw : List.takeWhile jsSpace
      (' ' :: (b.reverse ++ ('.' :: (a.reverse ++ (' ' :: rest))))) = [' '] := by
    rw [List.takeWhile_cons, if_pos (by decide), hbr, List.cons_append,
        takeWhile_cons_of_neg _ _ _ (isDigit_not_jsSpace c0 hc0)]
  have hr1 : List.dropWhile jsSpace
      (' ' :: (b.reverse ++ ('.' :: (a.reverse ++ (' ' :: rest)))))
      = b.reverse ++ ('.' :: (a.reverse ++ (' ' :: rest))) := by
    rw [List.dropWhile_cons, if_pos (by decide), hbr, List.cons_append,
        dropWhile_cons_of_neg _ _ _ (isDigit_not_jsSpace c0 hc0),
        ← List.cons_append, ← hbr]
  have hd2 : List.takeWhile Char.isDigit
      (b.reverse ++ ('.' :: (a.reverse ++ (' ' :: rest)))) = b.reverse := by
    rw [takeWhile_append_of_all _ _ _ hdb',
        takeWhile_cons_of_neg _ _ _ (by decide), List.append_nil]
  have hr2 : List.dropWhile Char.isDigit
      (b.reverse ++ ('.' :: (a.reverse ++ (' ' :: rest))))
      = '.' :: (a.reverse ++ (' ' :: rest)) := by
    rw [dropWhile_append_of_all _ _ _ hdb',
        dropWhile_cons_of_neg _ _ _ (by decide)]
  have hd1 : List.takeWhile Char.isDigit (a.reverse ++ (' ' :: rest))
      = a.reverse := by
    rw [takeWhile_append_of_all _ _ _ hda',
        takeWhile_cons_of_neg _ _ _ (by decide), List.append_nil]
  simp only [extractNozzleSizeAux, hw, hr1, hd2, hr2, hd1]
  rw [if_neg (by simp), if_neg (by simp [hbr]), if_neg (by simp [ha]),
      List.reverse_reverse, List.reverse_reverse]

/-- Evaluation of the `extractPrinterName` suffix parse on the same
well-formed tail: the remaining (reversed) prefix is returned, provided it
does not begin with further whitespace. -/
theorem extractPrinterNameAux_decimal (a b rest : List Char)
    (ha : a ≠ []) (hb : b ≠ []) (hda : ∀ c ∈ a, c.isDigit = true)
    (hdb : ∀ c ∈ b, c.isDigit = true)
    (hrest : ∀ y t, rest = y :: t → jsSpace y = false) :
    extractPrinterNameAux
      ('e' :: 'l' :: 'z' :: 'z' :: 'o' :: 'n' ::
        (' ' :: (b.reverse ++ ('.' :: (a.reverse ++ (' ' :: rest))))))
      = some rest := by
  have hda' : ∀ c ∈ a.reverse, c.isDigit = true := fun c hc =>
    hda c (List.mem_reverse.mp hc)
  have hdb' : ∀ c ∈ b.reverse, c.isDigit = true := fun c hc =>
    hdb c (List.mem_reverse.mp hc)
  obtain ⟨c0, t0, hbr⟩ : ∃ c0 t0, b.reverse = c0 :: t0 := by
    cases hbr : b.reverse with
    | nil => exact absurd (List.reverse_eq_nil_iff.mp hbr) hb
    | cons c0 t0 => exact ⟨c0, t0, rfl⟩
  have hc0 : c0.isDigit = true := hdb' c0 (hbr ▸ List.mem_cons_self c0 t0)
  have hw : List.takeWhile jsSpace
      (' ' :: (b.reverse ++ ('.' :: (a.reverse ++ (' ' :: rest))))) = [' '] := by
    rw [List.takeWhile_cons, if_pos (by decide), hbr, List.cons_append,
        takeWhile_cons_of_neg _ _ _ (isDigit_not_jsSpace c0 hc0)]
  have hr1 : List.dropWhile jsSpace
      (' ' :: (b.reverse ++ ('.' :: (a.reverse ++ (' ' :: rest)))))
      = b.reverse ++ ('.' :: (a.reverse ++ (' ' :: rest))) := by
    rw [List.dropWhile_cons, if_pos (by decide), hbr, List.cons_append,
        dropWhile_cons_of_neg _ _ _ (isDigit_not_jsSpace c0 hc0),
        ← List.cons_append, ← hbr]
  have hd2 : List.takeWhile Char.isDigit
      (b.reverse ++ ('.' :: (a.reverse ++ (' ' :: rest)))) = b.reverse := by
    rw [takeWhile_append_of_all _ _ _ hdb',
        takeWhile_cons_of_neg _ _ _ (by decide), List.append_nil]
  have hr2 : List.dropWhile Char.isDigit
      (b.reverse ++ ('.' :: (a.reverse ++ (' ' :: rest))))
      = '.' :: (a.reverse ++ (' ' :: rest)) := by
    rw [dropWhile_append_of_all _ _ _ hdb',
        dropWhile_cons_of_neg _ _ _ (by decide)]
  have hd1 : List.takeWhile Char.isDigit (a.reverse ++ (' ' :: rest))
      = a.reverse := by
    rw [takeWhile_append_of_all _ _ _ hda',
        takeWhile_cons_of_neg _ _ _ (by decide), List.append_nil]
  have hr4 : List.dropWhile Char.isDigit (a.reverse ++ (' ' :: rest))
      = ' ' :: rest := by
    rw [dropWhile_append_of_all _ _ _ hda',
        dropWhile_cons_of_neg _ _ _ (by decide)]
  have hw1 : List.takeWhile jsSpace (' ' :: rest) = [' '] := by
    rw [List.takeWhile_cons, if_pos (by decide)]
    cases hr : rest with
    | nil => rfl
    | cons y t => rw [takeWhile_cons_of_neg _ _ _ (hrest y t hr)]
  have hr5 : List.dropWhile jsSpace (' ' :: rest) = rest := by
    rw [List.dropWhile_cons, if_pos (by decide)]
    cases hr : rest with
    | nil => rfl
    | cons y t => rw [dropWhile_cons_of_neg _ _ _ (hrest y t hr)]
  simp only [extractPrinterNameAux, hw, hr1, hd2, hr2, hd1, hr4, hw1, hr5]
  rw [if_neg (by simp), if_neg (by simp [hbr]), if_neg (by simp [ha]),
      if_neg (by simp)]

/-- Failure of the suffix parse when the token before `" nozzle"` is
nonempty and contains neither a dot nor whitespace but is not of the decimal
shape: the regex cannot match. -/
theorem extractNozzleSizeAux_none (sd rest : List Char) (hne : sd ≠ [])
    (hs : ∀ c ∈ sd, jsSpace c = false ∧ c ≠ '.') :
    extractNozzleSizeAux
      ('e' :: 'l' :: 'z' :: 'z' :: 'o' :: 'n' ::
        (' ' :: (sd.reverse ++ (' ' :: rest))))
      = none := by
  have hs' : ∀ c ∈ sd.reverse, jsSpace c = false ∧ c ≠ '.' := fun c hc =>
    hs c (List.mem_reverse.mp hc)
  obtain ⟨c0, t0, hsr⟩ : ∃ c0 t0, sd.reverse = c0 :: t0 := by
    cases hsr : sd.reverse with
    | nil => exact absurd (List.reverse_eq_nil_iff.mp hsr) hne
    | cons c0 t0 => exact ⟨c0, t0, rfl⟩
  have hc0 : jsSpace c0 = false := (hs' c0 (hsr ▸ List.mem_cons_self c0 t0)).1
  have hw : List.takeWhile jsSpace (' ' :: (sd.reverse ++ (' ' :: rest)))
      = [' '] := by
    rw [List.takeWhile_cons, if_pos (by decide), hsr, List.cons_append,
        takeWhile_cons_of_neg _ _ _ hc0]
  have hr1 : List.dropWhile jsSpace (' ' :: (sd.reverse ++ (' ' :: rest)))
      = sd.reverse ++ (' ' :: rest) := by
    rw [List.dropWhile_cons, if_pos (by decide), hsr, List.cons_append,
        dropWhile_cons_of_neg _ _ _ hc0, ← List.cons_append, ← hsr]
  have hsplit := List.takeWhile_append_dropWhile (p := Char.isDigit) (l := sd.reverse)
  cases hdrop : sd.reverse.dropWhile Char.isDigit with
  | nil =>
      have hall : ∀ c ∈ sd.reverse, c.isDigit = true := by
        intro c hc
        have : sd.reverse.takeWhile Char.isDigit = sd.reverse := by
          rw [← hsplit, hdrop, List.append_nil, List.takeWhile_idem]
        exact all_mem_takeWhile _ _ c (this ▸ hc)
      have hd2 : List.takeWhile Char.isDigit (sd.reverse ++ (' ' :: rest))
          = sd.reverse := by
        rw [takeWhile_append_of_all _ _ _ hall,
            takeWhile_cons_of_neg _ _ _ (by decide), List.append_nil]
      have hr2 : List.dropWhile Char.isDigit (sd.reverse ++ (' ' :: rest))
          = ' ' :: rest := by
        rw [dropWhile_append_of_all _ _ _ hall,
            dropWhile_cons_of_neg _ _ _ (by decide)]
      simp only [extractNozzleSizeAux, hw, hr1, hd2, hr2]
      rw [if_neg (by simp), if_neg (by simp [hsr])]
      rfl
  | cons y t' =>
      have hy : y.isDigit = false :=
        head_false_of_dropWhile_cons _ _ _ _ hdrop
      have hymem : y ∈ sd.reverse :=
        mem_of_mem_dropWhile _ _ (hdrop ▸ List.mem_cons_self y t')
      have hydot : y ≠ '.' := (hs' y hymem).2
      have halltw : ∀ c ∈ sd.reverse.takeWhile Char.isDigit, c.isDigit = true :=
        all_mem_takeWhile _ _
      have hd2 : List.takeWhile Char.isDigit (sd.reverse ++ (' ' :: rest))
          = sd.reverse.takeWhile Char.isDigit := by
        conv_lhs => rw [← hsplit]
        rw [List.append_assoc, takeWhile_append_of_all _ _ _ halltw, hdrop,
            List.cons_append, takeWhile_cons_of_neg _ _ _ hy, List.append_nil]
      have hr2 : List.dropWhile Char.isDigit (sd.reverse ++ (' ' :: rest))
          = y :: (t' ++ (' ' :: rest)) := by
        conv_lhs => rw [← hsplit]
        rw [List.append_assoc, dropWhile_append_of_all _ _ _ halltw, hdrop,
            List.cons_append, dropWhile_cons_of_neg _ _ _ hy]
      simp only [extractNozzleSizeAux, hw, hr1, hd2, hr2]
      rw [if_neg (by simp)]
      cases htw : sd.reverse.takeWhile Char.isDigit with
      | nil => simp
      | cons d ds =>
          rw [if_neg (by simp)]
          split
          · rename_i r3 heq
            simp only [List.cons.injEq] at heq
            exact absurd heq.1 hydot
          · rfl

/-- The compatible-printer identifier as the generator builds it:
`"{printer} {nozzleToken} nozzle"`. -/
def nozzleId (P s : String) : String := P ++ " " ++ s ++ " nozzle"

theorem nozzleId_reverse (P s : String) :
    (nozzleId P s).data.reverse
      = 'e' :: 'l' :: 'z' :: 'z' :: 'o' :: 'n' ::
        (' ' :: (s.data.reverse ++ (' ' :: P.data.reverse))) := by
  obtain ⟨pd⟩ := P
  obtain ⟨sd⟩ := s
  show (((pd ++ [' ']) ++ sd) ++ [' ', 'n', 'o', 'z', 'z', 'l', 'e']).reverse = _
  simp [List.reverse_append, List.append_assoc]

/-- C10 counterexample: for `P = "X 1.2"` (which carries no
`" d.d nozzle"` suffix, as `extractPrinterName` leaves it unchanged) and the
empty nozzle token, the built identifier still yields a nozzle size —
`some "1.2"` — although the claim demands `null` for a token without the
decimal shape. -/
theorem claim_C10_counterexample :
    extractPrinterName "X 1.2" = "X 1.2" ∧
    ("" : String).data = [] ∧
    nozzleId "X 1.2" "" = "X 1.2  nozzle" ∧
    extractNozzleSize (nozzleId "X 1.2" "") = some "1.2" :=
  ⟨rfl, rfl, rfl, rfl⟩

/-- C10 (amended): for a nozzle token `s` of decimal shape
`digits '.' digits`, extraction from `P ++ " " ++ s ++ " nozzle"` returns
exactly `s` for *every* `P`, and `extractPrinterName` returns exactly `P`
provided `P` does not end in whitespace; for a nonempty token containing
neither a dot nor whitespace (such as `"1"` built from the capability entry
`"1mm"`), extraction returns `none`.  Tokens outside these two classes can
make extraction pick digits out of `P` itself, which is what refutes the
original claim. -/
theorem claim_C10_amended_roundtrip (P s : String) :
    (∀ a b : List Char, a ≠ [] → b ≠ [] → (∀ c ∈ a, c.isDigit = true) →
      (∀ c ∈ b, c.isDigit = true) → s.data = a ++ '.' :: b →
      extractNozzleSize (nozzleId P s) = some s ∧
      ((∀ c, P.data.getLast? = some c → jsSpace c = false) →
        extractPrinterName (nozzleId P s) = P)) ∧
    (s.data ≠ [] → (∀ c ∈ s.data, jsSpace c = false ∧ c ≠ '.') →
      extractNozzleSize (nozzleId P s) = none) := by
  constructor
  · intro a b ha hb hda hdb hsd
    have hrev : (nozzleId P s).data.reverse
        = 'e' :: 'l' :: 'z' :: 'z' :: 'o' :: 'n' ::
          (' ' :: (b.reverse ++ ('.' :: (a.reverse ++ (' ' :: P.data.reverse))))) := by
      rw [nozzleId_reverse, hsd]
      simp [List.reverse_append, List.append_assoc]
    constructor
    · rw [extractNozzleSize, hrev,
          extractNozzleSizeAux_decimal a b _ ha hb hda hdb, ← hsd]
    · intro hP
      have haux := extractPrinterNameAux_decimal a b P.data.reverse ha hb hda hdb
        (fun y t hyt => hP y (by rw [← List.head?_reverse, hyt]; rfl))
      rw [extractPrinterName, hrev, haux]
      simp
  · intro hne hs
    rw [extractNozzleSize, nozzleId_reverse]
    exact extractNozzleSizeAux_none s.data _ hne hs

/-- Witness for C10 (amended): a decimal token round-trips, a whole-number
token fails extraction. -/
theorem claim_C10_amended_witness :
    extractNozzleSize (nozzleId "Bambu Lab X1C" "0.4") = some "0.4" ∧
    extractPrinterName (nozzleId "Bambu Lab X1C" "0.4") = "Bambu Lab X1C" ∧
    extractNozzleSize (nozzleId "Bambu Lab X1C" "1") = none := by
  have h1 := (claim_C10_amended_roundtrip "Bambu Lab X1C" "0.4").1 ['0'] ['4']
    (by decide) (by decide) (by decide) (by decide) rfl
  have h2 := (claim_C10_amended_roundtrip "Bambu Lab X1C" "1").2
    (by decide) (by decide)
  refine ⟨h1.1, h1.2 ?_, h2⟩
  intro c hc
  rw [show ("Bambu Lab X1C" : String).data.getLast? = some 'C' from rfl] at hc
  cases hc
  decide

/-- The forced `compatible_printers` assignment survives the optional
`version` assignment. -/
theorem bambuPostProcess_compatible (c : JObj) (ps v : String) :
    jsLookup (bambuPostProcess c ps v) "compatible_printers"
      = some (.jarr [.jstr ps]) := by
  unfold bambuPostProcess
  simp only []
  split
  · rw [jsLookup_setKey_ne _ _ _ _ (by decide), jsLookup_setKey_self]
  · rw [jsLookup_setKey_self]

/-- The generation loop succeeds and produces one artifact per identifier
when the base config exists and every identifier has an extractable nozzle
size. -/
theorem bambuCollect_ok (env : BambuEnv) (base : JObj) (m sl v : String)
    (hB : env.baseConfig = some base) :
    ∀ l : List String, (∀ ps ∈ l, (extractNozzleSize ps).isSome = true) →
    bambuCollect env m sl v l
      = .ok (l.map (fun ps =>
          ⟨m, extractPrinterName ps, (extractNozzleSize ps).getD "", ps,
           bambuResolve env base ps ((extractNozzleSize ps).getD "") v,
           bambuFilename m (extractPrinterName ps)
             ((extractNozzleSize ps).getD "") v⟩)) := by
  intro l hl
  induction l with
  | nil => rfl
  | cons ps rest ih =>
      obtain ⟨nz, hnz⟩ :=
        Option.isSome_iff_exists.mp (hl ps (List.mem_cons_self ps rest))
      rw [List.map_cons]
      simp only [bambuCollect, bambuGenerateConfig, hB, hnz,
        ih (fun x hx => hl x (List.mem_cons_of_mem _ hx)), hnz, Option.getD_some]
      rfl

/-- A successfully extracted nozzle size consists of digits and one dot. -/
theorem extractNozzleSize_chars (t n : String) (h : extractNozzleSize t = some n) :
    ∀ c ∈ n.data, c.isDigit = true ∨ c = '.' := by
  unfold extractNozzleSize extractNozzleSizeAux at h
  split at h
  · simp only [] at h
    split at h
    · exact absurd h (by simp)
    · split at h
      · exact absurd h (by simp)
      · split at h
        · split at h
          · exact absurd h (by simp)
          · injection h with h
            intro c hc
            rw [← h] at hc
            rcases List.mem_append.mp hc with hc | hc
            · exact Or.inl (all_mem_takeWhile _ _ c (List.mem_reverse.mp hc))
            · rcases List.mem_cons.mp hc with rfl | hc
              · exact Or.inr rfl
              · exact Or.inl (all_mem_takeWhile _ _ c (List.mem_reverse.mp hc))
        · exact absurd h (by simp)
  · exact absurd h (by simp)

/-- Splitting at the separating underscore is injective when the right part
contains no underscore. -/
theorem underscore_split_inj (d1 d2 n1 n2 : List Char)
    (h1 : '_' ∉ n1) (h2 : '_' ∉ n2)
    (h : d1 ++ '_' :: n1 = d2 ++ '_' :: n2) : d1 = d2 ∧ n1 = n2 := by
  have hrev := congrArg List.reverse h
  simp only [List.reverse_append, List.reverse_cons, List.append_assoc,
    List.singleton_append] at hrev
  have hall1 : ∀ x ∈ n1.reverse, (x != '_') = true := by
    intro x hx
    simp only [bne_iff_ne, ne_eq]
    exact fun hxe => h1 (hxe ▸ List.mem_reverse.mp hx)
  have hall2 : ∀ x ∈ n2.reverse, (x != '_') = true := by
    intro x hx
    simp only [bne_iff_ne, ne_eq]
    exact fun hxe => h2 (hxe ▸ List.mem_reverse.mp hx)
  have ht := congrArg (List.takeWhile (fun c => c != '_')) hrev
  rw [takeWhile_append_of_all _ _ _ hall1, takeWhile_append_of_all _ _ _ hall2,
      takeWhile_cons_of_neg _ _ _ (by decide),
      takeWhile_cons_of_neg _ _ _ (by decide)] at ht
  have hdp := congrArg (List.dropWhile (fun c => c != '_')) hrev
  rw [dropWhile_append_of_all _ _ _ hall1, dropWhile_append_of_all _ _ _ hall2,
      dropWhile_cons_of_neg _ _ _ (by decide),
      dropWhile_cons_of_neg _ _ _ (by decide)] at hdp
  simp only [List.append_nil, List.cons.injEq, true_and] at ht hdp
  exact ⟨List.reverse_injective hdp, List.reverse_injective ht⟩

/-- The artifact filename determines the dashed printer name and the nozzle
size, as long as the nozzle size contains no underscore. -/
theorem bambuFilename_inj (m v d1 d2 n1 n2 : String)
    (hn1 : '_' ∉ n1.data) (hn2 : '_' ∉ n2.data)
    (h : "addnorth_" ++ m ++ "_" ++ d1 ++ "_" ++ n1 ++ "mm_" ++ v ++ ".json"
       = "addnorth_" ++ m ++ "_" ++ d2 ++ "_" ++ n2 ++ "mm_" ++ v ++ ".json") :
    d1 = d2 ∧ n1 = n2 := by
  have hd := congrArg String.data h
  simp only [String.data_append, List.append_assoc] at hd
  replace hd := List.append_cancel_left hd
  replace hd := List.append_cancel_left hd
  replace hd := List.append_cancel_left hd
  have hshape : ∀ d n : List Char,
      d ++ (['_'] ++ (n ++ (['m', 'm', '_'] ++ (v.data ++ ['.', 'j', 's', 'o', 'n']))))
        = (d ++ '_' :: n) ++ (['m', 'm', '_'] ++ (v.data ++ ['.', 'j', 's', 'o', 'n'])) := by
    intro d n
    simp [List.append_assoc]
  rw [hshape, hshape] at hd
  replace hd := List.append_cancel_right hd
  obtain ⟨hdash, hnz⟩ := underscore_split_inj _ _ _ _ hn1 hn2 hd
  have string_ext : ∀ s t : String, s.data = t.data → s = t := by
    intro s t hst
    cases s
    cases t
    exact congrArg String.mk hst
  exact ⟨string_ext _ _ hdash, string_ext _ _ hnz⟩

/-- C3 (amended): when the base config exists, every enumerated identifier
has an extractable nozzle size, and the (dashed printer name, nozzle size)
pairs are pairwise distinct, `generateAllConfigs` returns exactly one
artifact per (printer, nozzle) pair of a `bambuslicer`-supporting printer,
each with `compatible_printers` forced to that single identifier, each named
`addnorth_{material}_{printer-dashed}_{nozzle}mm_{version}.json`, and the
filenames are pairwise distinct.  (The two extra hypotheses are forced by
the counterexample: a `"1mm"` nozzle makes the run throw, and printers
`"A B"` / `"A-B"` collide after dash-substitution.) -/
theorem claim_C3_amended_fanout (env : BambuEnv) (base : JObj) (m sl v : String)
    (hB : env.baseConfig = some base)
    (h1 : ∀ ps ∈ enumCompatible env.printersTable,
      (extractNozzleSize ps).isSome = true)
    (h2 : ((enumCompatible env.printersTable).map (fun ps =>
        (dashName (extractPrinterName ps), extractNozzleSize ps))).Nodup) :
    ∃ results, bambuGenerateAllConfigs env m sl v = .ok results ∧
      results.map (fun r => r.printerString) = enumCompatible env.printersTable ∧
      (∀ r ∈ results, jsLookup r.config "compatible_printers"
        = some (.jarr [.jstr r.printerString])) ∧
      (∀ r ∈ results, r.filename
        = "addnorth_" ++ m ++ "_" ++ dashName r.printer ++ "_" ++ r.nozzle
          ++ "mm_" ++ v ++ ".json") ∧
      (results.map (fun r => r.filename)).Nodup := by
  have hcol := bambuCollect_ok env base m sl v hB _ h1
  refine ⟨_, by simp only [bambuGenerateAllConfigs, hB]; exact hcol, ?_, ?_, ?_, ?_⟩
  · rw [List.map_map]
    exact List.map_id _
  · intro r hr
    obtain ⟨ps, _, rfl⟩ := List.mem_map.mp hr
    simp only [bambuResolve]
    exact bambuPostProcess_compatible _ _ _
  · intro r hr
    obtain ⟨ps, _, rfl⟩ := List.mem_map.mp hr
    rfl
  · rw [List.map_map]
    have hmapeq : (enumCompatible env.printersTable).map
        ((fun r : ConfigData => r.filename) ∘ (fun ps =>
          (⟨m, extractPrinterName ps, (extractNozzleSize ps).getD "", ps,
            bambuResolve env base ps ((extractNozzleSize ps).getD "") v,
            bambuFilename m (extractPrinterName ps)
              ((extractNozzleSize ps).getD "") v⟩ : ConfigData)))
        = ((enumCompatible env.printersTable).map (fun ps =>
            (dashName (extractPrinterName ps), extractNozzleSize ps))).map
          (fun q => "addnorth_" ++ m ++ "_" ++ q.1 ++ "_" ++ (q.2.getD "")
            ++ "mm_" ++ v ++ ".json") := by
      rw [List.map_map]
      exact List.map_congr_left (fun ps _ => rfl)
    rw [hmapeq]
    refine List.Nodup.map_on ?_ h2
    intro q1 hq1 q2 hq2 hF
    obtain ⟨ps1, hps1, hq1e⟩ := List.mem_map.mp hq1
    obtain ⟨ps2, hps2, hq2e⟩ := List.mem_map.mp hq2
    obtain ⟨n1, hn1⟩ := Option.isSome_iff_exists.mp (h1 ps1 hps1)
    obtain ⟨n2, hn2⟩ := Option.isSome_iff_exists.mp (h1 ps2 hps2)
    have hu1 : '_' ∉ n1.data := by
      intro hmem
      rcases extractNozzleSize_chars ps1 n1 hn1 '_' hmem with hc | hc
      · exact absurd hc (by decide)
      · exact absurd hc (by decide)
    have hu2 : '_' ∉ n2.data := by
      intro hmem
      rcases extractNozzleSize_chars ps2 n2 hn2 '_' hmem with hc | hc
      · exact absurd hc (by decide)
      · exact absurd hc (by decide)
    subst hq1e hq2e
    simp only [hn1, hn2, Option.getD_some] at hF
    obtain ⟨hdash, hnz⟩ := bambuFilename_inj m v _ _ _ _ hu1 hu2 hF
    simp [hn1, hn2, hdash, hnz]

/-- Witness for C3 (amended): one supporting printer with two nozzles, one
printer for another slicer. -/
theorem claim_C3_amended_witness :
    ∃ results, bambuGenerateAllConfigs
        ⟨some [("filament_type", Json.jarr [Json.jstr "PLA"])], none, none,
         fun _ _ => none,
         [("Bambu Lab X1 Carbon", ⟨["bambuslicer"], ["0.4mm", "0.6mm"]⟩),
          ("Prusa MK4", ⟨["prusaslicer"], ["0.8mm"]⟩)]⟩
        "pla" "bambuslicer" "v1" = .ok results ∧
      results.map (fun r => r.printerString)
        = enumCompatible
          [("Bambu Lab X1 Carbon", ⟨["bambuslicer"], ["0.4mm", "0.6mm"]⟩),
           ("Prusa MK4", ⟨["prusaslicer"], ["0.8mm"]⟩)] ∧
      (∀ r ∈ results, jsLookup r.config "compatible_printers"
        = some (.jarr [.jstr r.printerString])) ∧
      (∀ r ∈ results, r.filename
        = "addnorth_" ++ "pla" ++ "_" ++ dashName r.printer ++ "_" ++ r.nozzle
          ++ "mm_" ++ "v1" ++ ".json") ∧
      (results.map (fun r => r.filename)).Nodup :=
  claim_C3_amended_fanout _ _ "pla" "bambuslicer" "v1" rfl
    (by decide) (by decide)

/-- Projection used to exhibit the C3 counterexample concretely. -/
def fnamesOf (r : Except String (List ConfigData)) : List String :=
  match r with
  | .ok l => l.map (fun c => c.filename)
  | .error _ => []

/-- C3 counterexample: two distinct capability-table printers `"A B"` and
`"A-B"` produce two artifacts whose filenames coincide after whitespace is
replaced by dashes — the returned filenames are not pairwise distinct. -/
theorem claim_C3_counterexample :
    fnamesOf (bambuGenerateAllConfigs
      ⟨some [], none, none, fun _ _ => none,
       [("A B", ⟨["bambuslicer"], ["0.4mm"]⟩),
        ("A-B", ⟨["bambuslicer"], ["0.4mm"]⟩)]⟩
      "pla" "bambuslicer" "v1")
      = ["addnorth_pla_A-B_0.4mm_v1.json", "addnorth_pla_A-B_0.4mm_v1.json"] ∧
    ¬ (fnamesOf (bambuGenerateAllConfigs
      ⟨some [], none, none, fun _ _ => none,
       [("A B", ⟨["bambuslicer"], ["0.4mm"]⟩),
        ("A-B", ⟨["bambuslicer"], ["0.4mm"]⟩)]⟩
      "pla" "bambuslicer" "v1")).Nodup := by
  refine ⟨rfl, by decide⟩
